import Mathlib

/-!
# Wordle (`src/App.jsx`): guess scoring, keyboard status and game state

A shallow embedding of the logic of the `WordleGame` component.

* A JavaScript string is the list of its UTF-16 code units (`JSString`);
  `s[i]` is `s[i]?` (`none` is `undefined`), `s.length` is `List.length`.
* The React state hooks of the component are the fields of `GameState`; a value of
  `GameState` is also what one render of the component sees, and so what the
  functions created in that render close over.
* `handleSubmitGuess`, `getRandomWord` and `resetGame` are first given as functions
  `GameState → GameState`: the function run on its own, from its first line to its
  last, with the answer of the remote service as an argument.
* The component itself is asynchronous.  `Component` holds, next to the cells, the
  render that the registered (memoized) `handleKeyPress` closes over and the renders of
  the `handleSubmitGuess` calls that are still awaiting `validateWord`; a word request
  is pending exactly while `loading` is set.  An `Event` is a key press, a click, or the
  settling of one pending request, and the part of an `async` function before its
  `await` and the part after it are separate steps.
* `String.prototype.toUpperCase` is an argument (`toUpperCase`) of the keyboard
  handler: nothing is assumed about it.
-/

namespace Wordle

/-! ## JavaScript strings -/

/-- A JavaScript string: the sequence of its UTF-16 code units. -/
abbrev JSString := List Nat

/-- UTF-16 code units of one character. -/
def utf16 (c : Char) : JSString :=
  if c.toNat < 65536 then [c.toNat]
  else [55296 + (c.toNat - 65536) / 1024, 56320 + (c.toNat - 65536) % 1024]

/-- The JavaScript string written as the literal `s`. -/
def js (s : String) : JSString := s.toList.flatMap utf16

/-- `s.includes(sub)`: `sub` occurs in `s` as a contiguous substring. -/
def includes : JSString → JSString → Bool
  | [], sub => sub.isPrefixOf []
  | c :: s, sub => sub.isPrefixOf (c :: s) || includes s sub

/-- `s.slice(0, -1)`: all but the last code unit. -/
def slice0m1 (s : JSString) : JSString := s.dropLast

/-- The character class `[A-Z]` on one code unit. -/
def isAZ (c : Nat) : Bool := decide (65 ≤ c) && decide (c ≤ 90)

/-- `/^[A-Z]$/.test(key)`: exactly one code unit, in `A`..`Z`. -/
def testSingleAZ : JSString → Bool
  | [c] => isAZ c
  | _ => false

/-- `/^[A-Z]+$/.test(word)`: one or more code units, all in `A`..`Z`. -/
def testAllAZ (word : JSString) : Bool := !word.isEmpty && word.all isAZ

/-! ## Constants and state -/

def WORD_LENGTH : Nat := 6

def MAX_ATTEMPTS : Nat := 6

/-- The values of `gameStatus`: `'playing'`, `'won'`, `'lost'`. -/
inductive GameStatus where
  | playing
  | won
  | lost
  deriving DecidableEq, Repr

/-- The values returned by `getLetterStatus`: `'correct'`, `'present'`, `'absent'`. -/
inductive LetterStatus where
  | correct
  | present
  | absent
  deriving DecidableEq, Repr

/-- The `useState` cells of `WordleGame`. -/
structure GameState where
  targetWord : JSString
  currentGuess : JSString
  guesses : List JSString
  gameStatus : GameStatus
  currentRow : Nat
  loading : Bool
  error : JSString
  invalidWord : Bool
  deriving DecidableEq, Repr

/-! ## Letter scoring -/

/-- `getLetterStatus(letter, position, word)` with `targetWord` in scope. -/
def getLetterStatus (targetWord : JSString) (letter : JSString) (position : Nat)
    (word : JSString) : LetterStatus :=
  if word[position]? = targetWord[position]? then LetterStatus.correct
  else if includes targetWord letter then LetterStatus.present
  else LetterStatus.absent

/-! ## Word source and word validation -/

/-- Fallback words in case the API fails. -/
def fallbackWords : List JSString :=
  [js "PYTHON", js "PUZZLE", js "GALAXY", js "JUNGLE", js "WIZARD", js "FROZEN",
   js "CASTLE", js "BRIDGE"]

/-- `getRandomWord()`.  `fetched` is `data[randomIndex].word.toUpperCase()` when the
request answered with a non-empty list and `none` when it threw or the list was empty;
`r` is `Math.floor(Math.random() * fallbackWords.length)`. -/
def getRandomWord (fetched : Option JSString) (r : Fin 8) (s : GameState) : GameState :=
  let s1 := { s with loading := true, error := [] }
  let s2 :=
    match fetched with
    | some word =>
      if word.length = WORD_LENGTH ∧ testAllAZ word = true then
        { s1 with targetWord := word }
      else
        { s1 with targetWord := fallbackWords.getD r.val [] }
    | none => { s1 with targetWord := fallbackWords.getD r.val [] }
  { s2 with loading := false }

/-- Line terminators, which `.` does not match. -/
def isLineTerminator (c : Nat) : Bool :=
  decide (c = 10) || decide (c = 13) || decide (c = 8232) || decide (c = 8233)

/-- `/(.)\1{2,}/.test(word)`: some code unit that `.` matches is followed by two or
more copies of itself. -/
def hasRepeatedPattern : JSString → Bool
  | a :: b :: c :: rest =>
    (!isLineTerminator a && decide (a = b) && decide (b = c)) ||
      hasRepeatedPattern (b :: c :: rest)
  | _ => false

/-- The string iterator: a high surrogate followed by a low surrogate is one element,
every other code unit is an element of its own. -/
def codePoints : JSString → List JSString
  | [] => []
  | [a] => [[a]]
  | a :: b :: rest =>
    if 55296 ≤ a ∧ a ≤ 56319 ∧ 56320 ≤ b ∧ b ≤ 57343 then [a, b] :: codePoints rest
    else [a] :: codePoints (b :: rest)

/-- `new Set(word).size === 1`. -/
def isAllSameLetter (word : JSString) : Bool := decide ((codePoints word).dedup.length = 1)

/-- `validateWord(word)`.  `remote` is `some b` when the `try` block returned (truthy
or falsy `b`) and `none` when a request threw, which runs the `catch` block. -/
def validateWord (remote : Option Bool) (word : JSString) : Bool :=
  match remote with
  | some found => found
  | none =>
    if hasRepeatedPattern word || isAllSameLetter word then false
    else decide (word.length = WORD_LENGTH) && testAllAZ word

/-! ## Handlers -/

/-- The initial values of the `useState` cells. -/
def initialState : GameState :=
  { targetWord := [], currentGuess := [], guesses := [], gameStatus := GameStatus.playing,
    currentRow := 0, loading := true, error := [], invalidWord := false }

/-- `handleSubmitGuess()`, with the outcome `remote` of the validator's requests. -/
def handleSubmitGuess (remote : Option Bool) (s : GameState) : GameState :=
  if s.currentGuess.length ≠ WORD_LENGTH then s
  else
    let isValid := validateWord remote s.currentGuess
    if !isValid then { s with invalidWord := true }
    else
      let newGuesses := s.guesses ++ [s.currentGuess]
      let s1 := { s with invalidWord := false, guesses := newGuesses,
                         currentRow := s.currentRow + 1 }
      let s2 :=
        if s.currentGuess = s.targetWord then { s1 with gameStatus := GameStatus.won }
        else if newGuesses.length ≥ MAX_ATTEMPTS then { s1 with gameStatus := GameStatus.lost }
        else s1
      { s2 with currentGuess := [] }

/-- The rows of the on-screen keyboard. -/
def keyboardRows : List (List JSString) :=
  [[js "Q", js "W", js "E", js "R", js "T", js "Y", js "U", js "I", js "O", js "P"],
   [js "A", js "S", js "D", js "F", js "G", js "H", js "J", js "K", js "L"],
   [js "ENTER", js "Z", js "X", js "C", js "V", js "B", js "N", js "M", js "⌫"]]

/-- `resetGame()`; `fetched` and `r` are the arguments of its `getRandomWord()`. -/
def resetGame (fetched : Option JSString) (r : Fin 8) (s : GameState) : GameState :=
  getRandomWord fetched r
    { s with currentGuess := [], guesses := [], gameStatus := GameStatus.playing,
             currentRow := 0, error := [], invalidWord := false }

/-! ## Keyboard status -/

/-- The indices of `guess` that hold `key`:
`guess.split('').map((letter, index) => letter === key ? index : -1).filter(pos => pos !== -1)`. -/
def positions (key : JSString) (guess : JSString) : List Int :=
  (guess.enum.map (fun p => if [p.2] = key then (p.1 : Int) else -1)).filter
    (fun pos => decide (pos ≠ -1))

/-- The loop `for (const pos of positions)` of `getKeyStatus`, from the value `status`;
`none` is the empty string.  Its `break` leaves this loop only. -/
def scanPositions (targetWord key guess : JSString) :
    List Int → Option LetterStatus → Option LetterStatus
  | [], status => status
  | pos :: rest, status =>
    let letterStatus := getLetterStatus targetWord key pos.toNat guess
    if letterStatus = LetterStatus.correct then some LetterStatus.correct
    else if letterStatus = LetterStatus.present ∧ status ≠ some LetterStatus.correct then
      scanPositions targetWord key guess rest (some LetterStatus.present)
    else if letterStatus = LetterStatus.absent ∧ status = none then
      scanPositions targetWord key guess rest (some LetterStatus.absent)
    else scanPositions targetWord key guess rest status

/-- `getKeyStatus(key)` with `targetWord` and `guesses` in scope. -/
def getKeyStatus (targetWord : JSString) (guesses : List JSString) (key : JSString) :
    Option LetterStatus :=
  guesses.foldl
    (fun status guess =>
      if includes guess key then
        scanPositions targetWord key guess (positions key guess) status
      else status)
    none

/-! ## The component between events -/

/-- The component between two events. -/
structure Component where
  /-- The `useState` cells. -/
  cells : GameState
  /-- The render whose cells the registered `handleKeyPress`, and the
  `handleSubmitGuess` it calls, close over. -/
  keyHandler : GameState
  /-- The renders of the `handleSubmitGuess` calls that are awaiting `validateWord`. -/
  validating : List GameState
  /-- The number of `setTimeout` callbacks that have not run yet. -/
  timers : Nat
  deriving DecidableEq, Repr

/-- `getRandomWord()` up to `await fetch(...)`. -/
def getRandomWordStart (s : GameState) : GameState :=
  { s with loading := true, error := [] }

/-- `getRandomWord()` from the answer of its request on, writing to the cells `s` of
that moment; `fetched` and `r` are as in `getRandomWord`. -/
def getRandomWordSettle (fetched : Option JSString) (r : Fin 8) (s : GameState) :
    GameState :=
  let s2 :=
    match fetched with
    | some word =>
      if word.length = WORD_LENGTH ∧ testAllAZ word = true then
        { s with targetWord := word }
      else
        { s with targetWord := fallbackWords.getD r.val [] }
    | none => { s with targetWord := fallbackWords.getD r.val [] }
  { s2 with loading := false }

/-- `resetGame()` up to the `await fetch(...)` of its `getRandomWord()`. -/
def resetGameStart (s : GameState) : GameState :=
  getRandomWordStart
    { s with currentGuess := [], guesses := [], gameStatus := GameStatus.playing,
             currentRow := 0, error := [], invalidWord := false }

/-- The `handleSubmitGuess()` of the render `render`, up to
`await validateWord(currentGuess)`. -/
def submitStart (render : GameState) (c : Component) : Component :=
  if render.currentGuess.length ≠ WORD_LENGTH then c
  else
    { c with cells := { c.cells with invalidWord := false }
             validating := c.validating ++ [render] }

/-- The `handleSubmitGuess()` of the render `render`, from the answer `remote` of the
validator's requests on, writing to the cells `cells` of that moment;
`setCurrentRow(prev => prev + 1)` reads the cell, everything else reads `render`. -/
def submitSettle (remote : Option Bool) (render : GameState) (cells : GameState) :
    GameState :=
  let isValid := validateWord remote render.currentGuess
  if !isValid then { cells with invalidWord := true }
  else
    let newGuesses := render.guesses ++ [render.currentGuess]
    let s1 := { cells with guesses := newGuesses, currentRow := cells.currentRow + 1 }
    let s2 :=
      if render.currentGuess = render.targetWord then { s1 with gameStatus := GameStatus.won }
      else if newGuesses.length ≥ MAX_ATTEMPTS then { s1 with gameStatus := GameStatus.lost }
      else s1
    { s2 with currentGuess := [] }

/-- `handleKeyPress(event)` with `eventKey = event.key`: the registered callback reads
`gameStatus` and `currentGuess` of the render it closes over, its updater functions
`prev => ...` read the cell, and its `handleSubmitGuess()` is that of the same render. -/
def handleKeyPress (toUpperCase : JSString → JSString) (eventKey : JSString)
    (c : Component) : Component :=
  if c.keyHandler.gameStatus ≠ GameStatus.playing then c
  else
    let key := toUpperCase eventKey
    if key = js "ENTER" then submitStart c.keyHandler c
    else if key = js "BACKSPACE" then
      { c with cells := { c.cells with currentGuess := slice0m1 c.cells.currentGuess } }
    else if testSingleAZ key = true ∧ c.keyHandler.currentGuess.length < WORD_LENGTH then
      { c with cells := { c.cells with currentGuess := c.cells.currentGuess ++ key,
                                       invalidWord := false } }
    else c

/-- A click on the on-screen button `key`.  The keyboard is not rendered while
`loading` is set and the button is `disabled` unless the game is being played;
otherwise the `onClick` of the current render runs. -/
def keyboardClick (key : JSString) (c : Component) : Component :=
  if c.cells.loading = true then c
  else if c.cells.gameStatus ≠ GameStatus.playing then c
  else if key = js "ENTER" then submitStart c.cells c
  else if key = js "⌫" then
    { c with cells := { c.cells with currentGuess := slice0m1 c.cells.currentGuess } }
  else if c.cells.currentGuess.length < WORD_LENGTH ∧ testSingleAZ key = true then
    { c with cells := { c.cells with currentGuess := c.cells.currentGuess ++ key,
                                     invalidWord := false } }
  else c

/-- A click on the New Game button, which is not rendered while `loading` is set. -/
def newGameClick (c : Component) : Component :=
  if c.cells.loading = true then c
  else { c with cells := resetGameStart c.cells }

/-- `useCallback(..., [currentGuess, gameStatus])`: the callback of the previous render
is kept unless one of the two cells differs from what it closes over. -/
def useCallback (previous : GameState) (cells : GameState) : GameState :=
  if cells.currentGuess = previous.currentGuess ∧ cells.gameStatus = previous.gameStatus
  then previous
  else cells

/-- What can happen to a mounted component. -/
inductive Event where
  /-- A `keydown` on the window with `event.key = key`. -/
  | keyDown (key : JSString)
  /-- A click on the on-screen keyboard button `key`. -/
  | click (key : JSString)
  /-- A click on the New Game button. -/
  | newGame
  /-- The pending word request settles (`fetched`, `r` as in `getRandomWord`). -/
  | wordFetched (fetched : Option JSString) (r : Fin 8)
  /-- The pending `validateWord` call number `i` settles (`remote` as in
  `validateWord`). -/
  | validated (i : Nat) (remote : Option Bool)
  /-- A timer set by a refused submission fires: `setInvalidWord(false)`. -/
  | invalidWordTimeout

/-- What the event does, before the component renders again. -/
def handle (toUpperCase : JSString → JSString) (c : Component) : Event → Component
  | Event.keyDown key => handleKeyPress toUpperCase key c
  | Event.click key => keyboardClick key c
  | Event.newGame => newGameClick c
  | Event.wordFetched fetched r =>
    if c.cells.loading = true then
      { c with cells := getRandomWordSettle fetched r c.cells }
    else c
  | Event.validated i remote =>
    match c.validating[i]? with
    | none => c
    | some render =>
      { c with cells := submitSettle remote render c.cells
               validating := c.validating.eraseIdx i
               timers := if validateWord remote render.currentGuess = true then c.timers
                         else c.timers + 1 }
  | Event.invalidWordTimeout =>
    if c.timers = 0 then c
    else { c with cells := { c.cells with invalidWord := false }, timers := c.timers - 1 }

/-- The component after one event: the event is handled and the component renders. -/
def step (toUpperCase : JSString → JSString) (c : Component) (e : Event) : Component :=
  { handle toUpperCase c e with
    keyHandler := useCallback (handle toUpperCase c e).keyHandler (handle toUpperCase c e).cells }

/-- The component after a sequence of events. -/
def run (toUpperCase : JSString → JSString) (c : Component) (events : List Event) :
    Component :=
  events.foldl (step toUpperCase) c

/-- The component once mounted: the first render has registered its `handleKeyPress`
and the `useEffect` has called `getRandomWord()`, whose request is pending. -/
def mounted : Component :=
  { cells := getRandomWordStart initialState, keyHandler := initialState,
    validating := [], timers := 0 }

/-- The states of the component: the mounted one and what events make of it. -/
inductive Reachable (toUpperCase : JSString → JSString) : Component → Prop where
  | mount : Reachable toUpperCase mounted
  | step (c : Component) (e : Event) :
      Reachable toUpperCase c → Reachable toUpperCase (step toUpperCase c e)

/-- ASCII upper-casing: what `toUpperCase` does on ASCII strings. -/
def asciiUpper (s : JSString) : JSString :=
  s.map (fun c => if 97 ≤ c ∧ c ≤ 122 then c - 32 else c)

/-! ## Invariants -/

/-- A word of `WORD_LENGTH` letters `A`..`Z`. -/
def WellFormed (g : JSString) : Prop :=
  g.length = WORD_LENGTH ∧ ∀ x ∈ g, isAZ x = true

/-- What every state of the component satisfies, the memoized handler apart. -/
structure Pre (c : Component) : Prop where
  frozen : c.cells.gameStatus ≠ GameStatus.playing → c.cells.currentGuess = []
  input : c.cells.currentGuess.length ≤ WORD_LENGTH ∧ ∀ x ∈ c.cells.currentGuess, isAZ x = true
  recorded : ∀ g ∈ c.cells.guesses, WellFormed g
  handlerRecorded : ∀ g ∈ c.keyHandler.guesses, WellFormed g
  pending : ∀ r ∈ c.validating, WellFormed r.currentGuess ∧ ∀ g ∈ r.guesses, WellFormed g

/-- What every state of the component satisfies: `Pre`, and the registered handler
closes over the current `currentGuess` and `gameStatus`. -/
structure Inv (c : Component) : Prop where
  pre : Pre c
  guess : c.keyHandler.currentGuess = c.cells.currentGuess
  status : c.keyHandler.gameStatus = c.cells.gameStatus

/-- How one event may change the current input: not at all, empty it, drop its last
letter, or add one letter `A`..`Z` to an input shorter than `WORD_LENGTH`. -/
def InputChange (s t : GameState) : Prop :=
  t.currentGuess = s.currentGuess ∨ t.currentGuess = [] ∨
  t.currentGuess = s.currentGuess.dropLast ∨
  (s.currentGuess.length < WORD_LENGTH ∧
    ∃ x, 65 ≤ x ∧ x ≤ 90 ∧ t.currentGuess = s.currentGuess ++ [x])

/-- How one event may change the recorded guesses: not at all, empty them, or set them
to the guesses of a pending submission followed by its input, of length `WORD_LENGTH`. -/
def GuessesChange (c : Component) (t : GameState) : Prop :=
  t.guesses = c.cells.guesses ∨ t.guesses = [] ∨
  ∃ r ∈ c.validating, r.currentGuess.length = WORD_LENGTH ∧
    t.guesses = r.guesses ++ [r.currentGuess]

/-! ## Keyboard status: what the specification says -/

/-- Some occurrence of the letter `c` in some guess of `gs` is scored `st` by
`getLetterStatus` against the target `T`. -/
def Scored (T : JSString) (gs : List JSString) (c : Nat) (st : LetterStatus) : Prop :=
  ∃ g ∈ gs, ∃ i, g[i]? = some c ∧ getLetterStatus T [c] i g = st

/-- The better of a key status and a letter status, in the order
`'correct'`, `'present'`, `'absent'`, empty. -/
def best (status : Option LetterStatus) (letterStatus : LetterStatus) : Option LetterStatus :=
  match letterStatus with
  | LetterStatus.correct => some LetterStatus.correct
  | LetterStatus.present => if status = some LetterStatus.correct then status else some LetterStatus.present
  | LetterStatus.absent => if status = none then some LetterStatus.absent else status

/-- The best status in a list of letter statuses, empty (`none`) for the empty list. -/
def summary (l : List LetterStatus) : Option LetterStatus :=
  if LetterStatus.correct ∈ l then some LetterStatus.correct
  else if LetterStatus.present ∈ l then some LetterStatus.present
  else if LetterStatus.absent ∈ l then some LetterStatus.absent
  else none

/-- The letter statuses that `getKeyStatus(key)` computes, in the order it computes
them when no `break` is taken. -/
def scores (T : JSString) (gs : List JSString) (key : JSString) : List LetterStatus :=
  gs.flatMap (fun g =>
    if includes g key then (positions key g).map (fun p => getLetterStatus T key p.toNat g)
    else [])

/-! ## Degraded validation: what the specification says -/

/-- The word `w` has three identical consecutive code units. -/
def HasTriple (w : JSString) : Prop :=
  ∃ i a, w[i]? = some a ∧ w[i + 1]? = some a ∧ w[i + 2]? = some a

/-- All code units of `w` are identical. -/
def AllIdentical (w : JSString) : Prop := ∀ a ∈ w, ∀ b ∈ w, a = b

/-! ## Scenarios -/

/-- The key events that type the letters of `word`. -/
def typeKeys (word : JSString) : List Event := word.map (fun x => Event.keyDown [x])

/-- The Enter key. -/
def enterKey : Event := Event.keyDown (js "Enter")

/-- A component whose first word request answered `"PYTHON"` before any key. -/
def pythonGame : Component :=
  run asciiUpper mounted [Event.wordFetched (some (js "PYTHON")) 0]

/-- The game `pythonGame` with `"ZZZZZZ"` typed. -/
def zzzzzzTyped : Component := run asciiUpper pythonGame (typeKeys (js "ZZZZZZ"))

/-- The game `zzzzzzTyped` after Enter, the validator not having answered yet. -/
def zzzzzzSubmitted : Component := run asciiUpper zzzzzzTyped [enterKey]

/-- The game `pythonGame` won at the first guess. -/
def pythonWon : Component :=
  run asciiUpper pythonGame
    (typeKeys (js "python") ++ [enterKey, Event.validated 0 (some true)])

/-- The game `pythonGame` after the guess `"PYTHOM"`, then the keys `a`, `1`, `Shift`,
`B`, a click on the button `C`, and Backspace. -/
def mixedKeys : Component :=
  run asciiUpper pythonGame
    (typeKeys (js "pythom") ++ [enterKey, Event.validated 0 none] ++
      [Event.keyDown (js "a"), Event.keyDown (js "1"), Event.keyDown (js "Shift"),
       Event.keyDown (js "B"), Event.click (js "C"), Event.keyDown (js "Backspace")])

/-- `"PYTHON"` typed while the first word request is pending, which then answers
`"PYTHON"`. -/
def typedBeforeWord : Component :=
  run asciiUpper mounted
    (typeKeys (js "python") ++ [Event.wordFetched (some (js "PYTHON")) 0])

/-- The component `typedBeforeWord` after the Enter key and an accepting validator. -/
def enterAfterWord : Component :=
  run asciiUpper typedBeforeWord [enterKey, Event.validated 0 (some true)]

/-- The component `typedBeforeWord` after a click on the ENTER button and an accepting
validator. -/
def clickAfterWord : Component :=
  run asciiUpper typedBeforeWord [Event.click (js "ENTER"), Event.validated 0 (some true)]

/-- The game `pythonGame` with `"PYTHOM"` typed and Enter pressed twice before the
validator answers, then both answers, accepting. -/
def doubleEnter : Component :=
  run asciiUpper pythonGame
    (typeKeys (js "pythom") ++
      [enterKey, enterKey, Event.validated 0 (some true), Event.validated 0 (some true)])

/-- The game `pythonGame`, then New Game, `"PYTHON"` typed and submitted while the new
word request is pending, which answers `"GARDEN"` before the validator accepts. -/
def guessDuringReset : Component :=
  run asciiUpper pythonGame
    ([Event.newGame] ++ typeKeys (js "python") ++
      [enterKey, Event.wordFetched (some (js "GARDEN")) 0, Event.validated 0 (some true)])

/-! ## Letter scoring: properties -/

theorem includes_singleton (c : Nat) (s : JSString) : includes s [c] = true ↔ c ∈ s := by
  induction s with
  | nil => simp [includes, List.isPrefixOf]
  | cons a s ih =>
    simp only [includes, List.isPrefixOf, Bool.or_eq_true, Bool.and_eq_true, ih,
      List.mem_cons, beq_iff_eq]
    constructor
    · rintro (⟨h, -⟩ | h)
      · exact Or.inl h
      · exact Or.inr h
    · rintro (h | h)
      · exact Or.inl ⟨h, trivial⟩
      · exact Or.inr h

theorem getLetterStatus_correct_iff (T letter G : JSString) (i : Nat) :
    getLetterStatus T letter i G = LetterStatus.correct ↔ G[i]? = T[i]? := by
  unfold getLetterStatus
  by_cases h : G[i]? = T[i]?
  · simp [h]
  · simp only [h, if_false, iff_false]
    split <;> simp

theorem getLetterStatus_present_iff (T G : JSString) (c i : Nat) :
    getLetterStatus T [c] i G = LetterStatus.present ↔ G[i]? ≠ T[i]? ∧ c ∈ T := by
  unfold getLetterStatus
  by_cases h : G[i]? = T[i]?
  · simp [h]
  · by_cases hc : c ∈ T
    · simp [h, hc, (includes_singleton c T).2 hc]
    · have : includes T [c] = false := by
        rw [← Bool.not_eq_true]; exact fun hh => hc ((includes_singleton c T).1 hh)
      simp [h, hc, this]

theorem getLetterStatus_absent_iff (T G : JSString) (c i : Nat) :
    getLetterStatus T [c] i G = LetterStatus.absent ↔ G[i]? ≠ T[i]? ∧ c ∉ T := by
  unfold getLetterStatus
  by_cases h : G[i]? = T[i]?
  · simp [h]
  · by_cases hc : c ∈ T
    · simp [h, hc, (includes_singleton c T).2 hc]
    · have : includes T [c] = false := by
        rw [← Bool.not_eq_true]; exact fun hh => hc ((includes_singleton c T).1 hh)
      simp [h, hc, this]

/-- C1: for a target `T` and a guess `G`, both of length `L`, and a position `i < L`
holding the letter `c` in `G` and `t` in `T`, `getLetterStatus(G[i], i, G)` is
`'correct'` exactly when `c = t`; when `c ≠ t` it is `'present'` if `T` contains `c`
and `'absent'` if it does not. -/
theorem getLetterStatus_spec (T G : JSString) (L i c t : Nat)
    (_hT : T.length = L) (_hG : G.length = L) (_hi : i < L)
    (hc : G[i]? = some c) (ht : T[i]? = some t) :
    (getLetterStatus T [c] i G = LetterStatus.correct ↔ c = t) ∧
    (c ≠ t → c ∈ T → getLetterStatus T [c] i G = LetterStatus.present) ∧
    (c ≠ t → c ∉ T → getLetterStatus T [c] i G = LetterStatus.absent) := by
  have hne : c ≠ t → G[i]? ≠ T[i]? := by
    intro h; rw [hc, ht]; exact fun e => h (Option.some.inj e)
  refine ⟨?_, ?_, ?_⟩
  · rw [getLetterStatus_correct_iff, hc, ht]
    exact ⟨fun e => Option.some.inj e, fun e => by rw [e]⟩
  · intro h hm
    exact (getLetterStatus_present_iff T G c i).2 ⟨hne h, hm⟩
  · intro h hm
    exact (getLetterStatus_absent_iff T G c i).2 ⟨hne h, hm⟩

/-- C1 at `T = "GARDEN"`, `G = "AABCDE"`, position 0 (`'A'` against `'G'`): present;
with the scores of position 1 there and of all positions of `"PYTHOM"` against
`"PYTHON"`. -/
theorem getLetterStatus_spec_witness :
    (js "GARDEN").length = 6 ∧ (js "AABCDE").length = 6 ∧ 0 < 6 ∧
    (js "AABCDE")[0]? = some 65 ∧ (js "GARDEN")[0]? = some 71 ∧
    ((getLetterStatus (js "GARDEN") [65] 0 (js "AABCDE") = LetterStatus.correct ↔ 65 = 71) ∧
     (65 ≠ 71 → 65 ∈ js "GARDEN" →
       getLetterStatus (js "GARDEN") [65] 0 (js "AABCDE") = LetterStatus.present) ∧
     (65 ≠ 71 → 65 ∉ js "GARDEN" →
       getLetterStatus (js "GARDEN") [65] 0 (js "AABCDE") = LetterStatus.absent)) ∧
    getLetterStatus (js "GARDEN") (js "A") 0 (js "AABCDE") = LetterStatus.present ∧
    getLetterStatus (js "GARDEN") (js "A") 1 (js "AABCDE") = LetterStatus.correct ∧
    getLetterStatus (js "PYTHON") (js "P") 0 (js "PYTHOM") = LetterStatus.correct ∧
    getLetterStatus (js "PYTHON") (js "Y") 1 (js "PYTHOM") = LetterStatus.correct ∧
    getLetterStatus (js "PYTHON") (js "T") 2 (js "PYTHOM") = LetterStatus.correct ∧
    getLetterStatus (js "PYTHON") (js "H") 3 (js "PYTHOM") = LetterStatus.correct ∧
    getLetterStatus (js "PYTHON") (js "O") 4 (js "PYTHOM") = LetterStatus.correct ∧
    getLetterStatus (js "PYTHON") (js "M") 5 (js "PYTHOM") = LetterStatus.absent :=
  ⟨by decide, by decide, by decide, by decide, by decide,
   getLetterStatus_spec (js "GARDEN") (js "AABCDE") 6 0 65 71
     (by decide) (by decide) (by decide) (by decide) (by decide),
   by decide, by decide, by decide, by decide, by decide, by decide, by decide, by decide⟩

/-- C7 as stated fails: in `T = "GARDEN"`, `G = "AABCDE"` the letter `'A'` is at two
positions of `G` and at exactly one of `T`, and its occurrence at position 1 is scored
`'correct'`, not `'present'`. -/
theorem repeated_letter_counterexample :
    (js "GARDEN").length = WORD_LENGTH ∧ (js "AABCDE").length = WORD_LENGTH ∧
    2 ≤ (js "AABCDE").count 65 ∧ (js "GARDEN").count 65 = 1 ∧
    (js "AABCDE")[1]? = some 65 ∧
    getLetterStatus (js "GARDEN") [65] 1 (js "AABCDE") = LetterStatus.correct ∧
    getLetterStatus (js "GARDEN") [65] 1 (js "AABCDE") ≠ LetterStatus.present := by
  decide

/-- C7, amended: when a letter `c` is at two or more positions of `G` and at exactly
one position of `T`, every occurrence of `c` in `G` is scored `'correct'` where `T`
has `c` at the same position and `'present'` everywhere else; none is `'absent'`. -/
theorem repeated_letter_scoring (T G : JSString) (c : Nat)
    (_hT : T.length = WORD_LENGTH) (_hG : G.length = WORD_LENGTH)
    (_hrep : 2 ≤ G.count c) (hone : T.count c = 1) (i : Nat) (hi : G[i]? = some c) :
    (T[i]? = some c → getLetterStatus T [c] i G = LetterStatus.correct) ∧
    (T[i]? ≠ some c → getLetterStatus T [c] i G = LetterStatus.present) ∧
    getLetterStatus T [c] i G ≠ LetterStatus.absent := by
  have hmem : c ∈ T := List.count_pos_iff.1 (by omega)
  refine ⟨?_, ?_, ?_⟩
  · intro h
    exact (getLetterStatus_correct_iff T [c] G i).2 (by rw [hi, h])
  · intro h
    exact (getLetterStatus_present_iff T G c i).2 ⟨by rw [hi]; exact fun e => h e.symm, hmem⟩
  · intro h
    exact ((getLetterStatus_absent_iff T G c i).1 h).2 hmem

/-- C7, amended, at `T = "GARDEN"`, `G = "AABCDE"`, letter `'A'`, position 0. -/
theorem repeated_letter_scoring_witness :
    (js "GARDEN").length = WORD_LENGTH ∧ (js "AABCDE").length = WORD_LENGTH ∧
    2 ≤ (js "AABCDE").count 65 ∧ (js "GARDEN").count 65 = 1 ∧
    (js "AABCDE")[0]? = some 65 ∧
    (((js "GARDEN")[0]? = some 65 →
        getLetterStatus (js "GARDEN") [65] 0 (js "AABCDE") = LetterStatus.correct) ∧
     ((js "GARDEN")[0]? ≠ some 65 →
        getLetterStatus (js "GARDEN") [65] 0 (js "AABCDE") = LetterStatus.present) ∧
     getLetterStatus (js "GARDEN") [65] 0 (js "AABCDE") ≠ LetterStatus.absent) :=
  ⟨by decide, by decide, by decide, by decide, by decide,
   repeated_letter_scoring (js "GARDEN") (js "AABCDE") 65
     (by decide) (by decide) (by decide) (by decide) 0 (by decide)⟩

/-! ## Submitting a guess -/

theorem handleSubmitGuess_short (remote : Option Bool) (s : GameState)
    (h : s.currentGuess.length ≠ WORD_LENGTH) : handleSubmitGuess remote s = s := by
  simp [handleSubmitGuess, h]

theorem handleSubmitGuess_rejected (remote : Option Bool) (s : GameState)
    (hl : s.currentGuess.length = WORD_LENGTH)
    (hv : validateWord remote s.currentGuess = false) :
    handleSubmitGuess remote s = { s with invalidWord := true } := by
  simp [handleSubmitGuess, hl, hv]

theorem handleSubmitGuess_accepted (remote : Option Bool) (s : GameState)
    (hl : s.currentGuess.length = WORD_LENGTH)
    (hv : validateWord remote s.currentGuess = true) :
    handleSubmitGuess remote s =
      { s with
        invalidWord := false
        guesses := s.guesses ++ [s.currentGuess]
        currentRow := s.currentRow + 1
        gameStatus :=
          if s.currentGuess = s.targetWord then GameStatus.won
          else if (s.guesses ++ [s.currentGuess]).length ≥ MAX_ATTEMPTS then GameStatus.lost
          else s.gameStatus
        currentGuess := [] } := by
  unfold handleSubmitGuess
  rw [if_neg (not_not.2 hl)]
  simp only [hv, Bool.not_true, Bool.false_eq_true, if_false]
  by_cases h1 : s.currentGuess = s.targetWord
  · rw [if_pos h1, if_pos h1]
  · rw [if_neg h1, if_neg h1]
    by_cases h2 : (s.guesses ++ [s.currentGuess]).length ≥ MAX_ATTEMPTS
    · rw [if_pos h2, if_pos h2]
    · rw [if_neg h2, if_neg h2]

theorem resetGame_fields (fetched : Option JSString) (r : Fin 8) (s : GameState) :
    (resetGame fetched r s).gameStatus = GameStatus.playing ∧
    (resetGame fetched r s).guesses = [] ∧
    (resetGame fetched r s).currentGuess = [] ∧
    (resetGame fetched r s).currentRow = 0 := by
  unfold resetGame getRandomWord
  cases fetched with
  | none => exact ⟨rfl, rfl, rfl, rfl⟩
  | some word =>
    dsimp only
    split <;> exact ⟨rfl, rfl, rfl, rfl⟩

theorem isAZ_iff (c : Nat) : isAZ c = true ↔ 65 ≤ c ∧ c ≤ 90 := by
  simp [isAZ]

theorem testAllAZ_iff (w : JSString) :
    testAllAZ w = true ↔ w ≠ [] ∧ ∀ c ∈ w, isAZ c = true := by
  unfold testAllAZ
  cases w with
  | nil => simp
  | cons a w => simp

theorem getRandomWord_frame (fetched : Option JSString) (r : Fin 8) (s : GameState) :
    (getRandomWord fetched r s).gameStatus = s.gameStatus ∧
    (getRandomWord fetched r s).guesses = s.guesses ∧
    (getRandomWord fetched r s).currentGuess = s.currentGuess ∧
    (getRandomWord fetched r s).currentRow = s.currentRow := by
  unfold getRandomWord
  cases fetched with
  | none => exact ⟨rfl, rfl, rfl, rfl⟩
  | some word =>
    dsimp only
    split <;> exact ⟨rfl, rfl, rfl, rfl⟩

theorem fallbackWords_wellformed (r : Fin 8) :
    (fallbackWords.getD r.val []).length = WORD_LENGTH ∧
    testAllAZ (fallbackWords.getD r.val []) = true := by
  revert r
  decide

theorem getRandomWord_targetWord (fetched : Option JSString) (r : Fin 8) (s : GameState) :
    (getRandomWord fetched r s).targetWord.length = WORD_LENGTH ∧
    testAllAZ (getRandomWord fetched r s).targetWord = true := by
  unfold getRandomWord
  cases fetched with
  | none => exact fallbackWords_wellformed r
  | some word =>
    dsimp only
    split
    · rename_i h
      exact h
    · exact fallbackWords_wellformed r

/-- C9: from every state, whatever its status, guesses and current input, `resetGame`
gives status `'playing'`, no guesses, an empty current input and row counter 0 (and a
target word of `WORD_LENGTH` letters `A`..`Z`). -/
theorem resetGame_spec (fetched : Option JSString) (r : Fin 8) (s : GameState) :
    (resetGame fetched r s).gameStatus = GameStatus.playing ∧
    (resetGame fetched r s).guesses = [] ∧
    (resetGame fetched r s).currentGuess = [] ∧
    (resetGame fetched r s).currentRow = 0 ∧
    (resetGame fetched r s).targetWord.length = WORD_LENGTH ∧
    (∀ c ∈ (resetGame fetched r s).targetWord, 65 ≤ c ∧ c ≤ 90) := by
  obtain ⟨h1, h2, h3, h4⟩ := getRandomWord_frame fetched r
    { s with currentGuess := [], guesses := [], gameStatus := GameStatus.playing,
             currentRow := 0, error := [], invalidWord := false }
  obtain ⟨h5, h6⟩ := getRandomWord_targetWord fetched r
    { s with currentGuess := [], guesses := [], gameStatus := GameStatus.playing,
             currentRow := 0, error := [], invalidWord := false }
  refine ⟨h1, h2, h3, h4, h5, fun c hc => ?_⟩
  exact (isAZ_iff c).1 (((testAllAZ_iff _).1 h6).2 c hc)

/-! ## The functions and their two halves -/

theorem getRandomWord_eq (fetched : Option JSString) (r : Fin 8) (s : GameState) :
    getRandomWord fetched r s = getRandomWordSettle fetched r (getRandomWordStart s) := by
  cases fetched <;> rfl

theorem resetGame_eq (fetched : Option JSString) (r : Fin 8) (s : GameState) :
    resetGame fetched r s = getRandomWordSettle fetched r (resetGameStart s) := by
  cases fetched <;> rfl

theorem submitSettle_rejected (remote : Option Bool) (render cells : GameState)
    (hv : validateWord remote render.currentGuess = false) :
    submitSettle remote render cells = { cells with invalidWord := true } := by
  simp [submitSettle, hv]

theorem submitSettle_accepted (remote : Option Bool) (render cells : GameState)
    (hv : validateWord remote render.currentGuess = true) :
    submitSettle remote render cells =
      { cells with
        guesses := render.guesses ++ [render.currentGuess]
        currentRow := cells.currentRow + 1
        gameStatus :=
          if render.currentGuess = render.targetWord then GameStatus.won
          else if (render.guesses ++ [render.currentGuess]).length ≥ MAX_ATTEMPTS then
            GameStatus.lost
          else cells.gameStatus
        currentGuess := [] } := by
  unfold submitSettle
  simp only [hv, Bool.not_true, Bool.false_eq_true, if_false]
  by_cases h1 : render.currentGuess = render.targetWord
  · rw [if_pos h1, if_pos h1]
  · rw [if_neg h1, if_neg h1]
    by_cases h2 : (render.guesses ++ [render.currentGuess]).length ≥ MAX_ATTEMPTS
    · rw [if_pos h2, if_pos h2]
    · rw [if_neg h2, if_neg h2]

theorem handleSubmitGuess_eq (remote : Option Bool) (s : GameState) :
    handleSubmitGuess remote s =
      if s.currentGuess.length ≠ WORD_LENGTH then s
      else submitSettle remote s { s with invalidWord := false } := by
  by_cases hl : s.currentGuess.length = WORD_LENGTH
  · rw [if_neg (not_not.2 hl)]
    cases hv : validateWord remote s.currentGuess with
    | false =>
      rw [handleSubmitGuess_rejected remote s hl hv, submitSettle_rejected remote s _ hv]
    | true =>
      rw [handleSubmitGuess_accepted remote s hl hv, submitSettle_accepted remote s _ hv]
  · rw [if_pos hl, handleSubmitGuess_short remote s hl]

theorem submitStart_short (render : GameState) (c : Component)
    (h : render.currentGuess.length ≠ WORD_LENGTH) : submitStart render c = c := by
  simp [submitStart, h]

theorem submitStart_full (render : GameState) (c : Component)
    (h : render.currentGuess.length = WORD_LENGTH) :
    submitStart render c =
      { c with cells := { c.cells with invalidWord := false }
               validating := c.validating ++ [render] } := by
  simp [submitStart, h]

theorem handleKeyPress_enter (toUpperCase : JSString → JSString) (key : JSString)
    (c : Component) (hk : toUpperCase key = js "ENTER") :
    handleKeyPress toUpperCase key c =
      if c.keyHandler.gameStatus ≠ GameStatus.playing then c
      else submitStart c.keyHandler c := by
  unfold handleKeyPress
  split
  · rfl
  · simp [hk]

theorem keyboardClick_enter (c : Component) :
    keyboardClick (js "ENTER") c =
      if c.cells.loading = true ∨ c.cells.gameStatus ≠ GameStatus.playing then c
      else submitStart c.cells c := by
  unfold keyboardClick
  by_cases h1 : c.cells.loading = true
  · simp [h1]
  · by_cases h2 : c.cells.gameStatus = GameStatus.playing
    · simp [h1, h2]
    · simp [h1, h2]

theorem step_validated (toUpperCase : JSString → JSString) (c : Component) (i : Nat)
    (remote : Option Bool) (render : GameState) (h : c.validating[i]? = some render) :
    (step toUpperCase c (Event.validated i remote)).cells =
      submitSettle remote render c.cells ∧
    (step toUpperCase c (Event.validated i remote)).validating = c.validating.eraseIdx i := by
  simp [step, handle, h]

/-- C6: a submission that is not accepted records no guess and leaves `guesses`,
`currentGuess`, `gameStatus` and `targetWord` as they were.  With a current input of
another length than `WORD_LENGTH`, `handleSubmitGuess` returns at once: the Enter key
and the ENTER button leave the component as it is.  A rejecting validator leaves the
four cells as they are at the moment it answers, whatever happened since the
submission was made.  And `handleSubmitGuess` run on its own leaves the four cells as
they are in both cases. -/
theorem submit_refused_unchanged (toUpperCase : JSString → JSString) (key : JSString)
    (remote : Option Bool) (s : GameState)
    (hk : toUpperCase key = js "ENTER")
    (h : s.currentGuess.length ≠ WORD_LENGTH ∨ validateWord remote s.currentGuess = false) :
    ((handleSubmitGuess remote s).guesses = s.guesses ∧
     (handleSubmitGuess remote s).currentGuess = s.currentGuess ∧
     (handleSubmitGuess remote s).gameStatus = s.gameStatus ∧
     (handleSubmitGuess remote s).targetWord = s.targetWord) ∧
    (∀ c : Component, c.keyHandler = s → s.currentGuess.length ≠ WORD_LENGTH →
      handleKeyPress toUpperCase key c = c) ∧
    (∀ c : Component, c.cells = s → s.currentGuess.length ≠ WORD_LENGTH →
      keyboardClick (js "ENTER") c = c) ∧
    (∀ (c : Component) (i : Nat), c.validating[i]? = some s →
      validateWord remote s.currentGuess = false →
      (step toUpperCase c (Event.validated i remote)).cells.guesses = c.cells.guesses ∧
      (step toUpperCase c (Event.validated i remote)).cells.currentGuess =
        c.cells.currentGuess ∧
      (step toUpperCase c (Event.validated i remote)).cells.gameStatus =
        c.cells.gameStatus ∧
      (step toUpperCase c (Event.validated i remote)).cells.targetWord =
        c.cells.targetWord ∧
      (step toUpperCase c (Event.validated i remote)).validating =
        c.validating.eraseIdx i) := by
  refine ⟨?_, ?_, ?_, ?_⟩
  · by_cases hl : s.currentGuess.length = WORD_LENGTH
    · rcases h with h | h
      · exact absurd hl h
      · rw [handleSubmitGuess_rejected remote s hl h]
        exact ⟨rfl, rfl, rfl, rfl⟩
    · rw [handleSubmitGuess_short remote s hl]
      exact ⟨rfl, rfl, rfl, rfl⟩
  · intro c hc hl
    rw [handleKeyPress_enter toUpperCase key c hk, hc, submitStart_short s c hl]
    split <;> rfl
  · intro c hc hl
    rw [keyboardClick_enter, hc, submitStart_short s c hl]
    split <;> rfl
  · intro c i hi hv
    obtain ⟨h1, h2⟩ := step_validated toUpperCase c i remote s hi
    rw [h1, h2, submitSettle_rejected remote s _ hv]
    exact ⟨rfl, rfl, rfl, rfl, rfl⟩

/-- C6 at `"ZZZZZZ"` typed and submitted with Enter, the validator on its degraded
path (which rejects it): no guess is recorded and the current input stays. -/
theorem submit_refused_unchanged_witness :
    asciiUpper (js "Enter") = js "ENTER" ∧
    zzzzzzSubmitted.validating = [zzzzzzTyped.cells] ∧
    zzzzzzTyped.cells.currentGuess = js "ZZZZZZ" ∧
    validateWord none zzzzzzTyped.cells.currentGuess = false ∧
    (step asciiUpper zzzzzzSubmitted (Event.validated 0 none)).cells.guesses = [] ∧
    (step asciiUpper zzzzzzSubmitted (Event.validated 0 none)).cells.currentGuess =
      js "ZZZZZZ" ∧
    (step asciiUpper zzzzzzSubmitted (Event.validated 0 none)).cells.gameStatus =
      GameStatus.playing ∧
    (step asciiUpper zzzzzzSubmitted (Event.validated 0 none)).validating = [] ∧
    (handleSubmitGuess none zzzzzzTyped.cells).guesses = zzzzzzTyped.cells.guesses ∧
    (handleSubmitGuess none zzzzzzTyped.cells).currentGuess =
      zzzzzzTyped.cells.currentGuess :=
  have h := submit_refused_unchanged asciiUpper (js "Enter") none zzzzzzTyped.cells
    (by decide) (Or.inr (by decide))
  have h4 := h.2.2.2 zzzzzzSubmitted 0 (by decide) (by decide)
  ⟨by decide, by decide, by decide, by decide, h4.1, h4.2.1, h4.2.2.1, h4.2.2.2.2,
    h.1.1, h.1.2.1⟩

/-! ## Invariants of the component -/

theorem testSingleAZ_iff (key : JSString) :
    testSingleAZ key = true ↔ ∃ c, key = [c] ∧ isAZ c = true := by
  match key with
  | [] => simp [testSingleAZ]
  | [c] => simp [testSingleAZ]
  | a :: b :: rest => simp [testSingleAZ]

theorem getRandomWordSettle_frame (fetched : Option JSString) (r : Fin 8) (s : GameState) :
    (getRandomWordSettle fetched r s).gameStatus = s.gameStatus ∧
    (getRandomWordSettle fetched r s).guesses = s.guesses ∧
    (getRandomWordSettle fetched r s).currentGuess = s.currentGuess := by
  unfold getRandomWordSettle
  cases fetched with
  | none => exact ⟨rfl, rfl, rfl⟩
  | some word =>
    dsimp only
    split <;> exact ⟨rfl, rfl, rfl⟩

theorem pre_of_fields (c d : Component) (h : Pre c)
    (hs : d.cells.gameStatus = c.cells.gameStatus)
    (hg : d.cells.currentGuess = c.cells.currentGuess)
    (hgs : d.cells.guesses = c.cells.guesses)
    (hk : d.keyHandler = c.keyHandler) (hv : d.validating = c.validating) : Pre d := by
  refine ⟨?_, ?_, ?_, ?_, ?_⟩
  · rw [hs, hg]; exact h.frozen
  · rw [hg]; exact h.input
  · rw [hgs]; exact h.recorded
  · rw [hk]; exact h.handlerRecorded
  · rw [hv]; exact h.pending

theorem pre_submitStart (render : GameState) (c : Component) (h : Pre c)
    (hr : ∀ x ∈ render.currentGuess, isAZ x = true)
    (hrg : ∀ g ∈ render.guesses, WellFormed g) : Pre (submitStart render c) := by
  by_cases hl : render.currentGuess.length = WORD_LENGTH
  · rw [submitStart_full render c hl]
    refine ⟨h.frozen, h.input, h.recorded, h.handlerRecorded, ?_⟩
    intro r hmem
    have hmem2 : r ∈ c.validating ++ [render] := hmem
    rcases List.mem_append.1 hmem2 with h1 | h1
    · exact h.pending r h1
    · rw [List.mem_singleton.1 h1]
      exact ⟨⟨hl, hr⟩, hrg⟩
  · rw [submitStart_short render c hl]
    exact h

theorem pre_delete (c : Component) (h : Pre c) :
    Pre { c with cells := { c.cells with currentGuess := slice0m1 c.cells.currentGuess } } := by
  refine ⟨?_, ?_, h.recorded, h.handlerRecorded, h.pending⟩
  · intro hn
    show slice0m1 c.cells.currentGuess = []
    rw [h.frozen hn]; rfl
  · show (slice0m1 c.cells.currentGuess).length ≤ WORD_LENGTH ∧
      ∀ x ∈ slice0m1 c.cells.currentGuess, isAZ x = true
    refine ⟨?_, fun x hx => h.input.2 x (List.mem_of_mem_dropLast hx)⟩
    unfold slice0m1
    rw [List.length_dropLast]
    exact le_trans (Nat.sub_le _ _) h.input.1

theorem pre_append (c : Component) (key : JSString) (h : Pre c)
    (hp : c.cells.gameStatus = GameStatus.playing)
    (hk : testSingleAZ key = true) (hl : c.cells.currentGuess.length < WORD_LENGTH) :
    Pre { c with cells := { c.cells with currentGuess := c.cells.currentGuess ++ key,
                                         invalidWord := false } } := by
  obtain ⟨x, rfl, hx⟩ := (testSingleAZ_iff key).1 hk
  refine ⟨fun hn => absurd hp hn, ?_, h.recorded, h.handlerRecorded, h.pending⟩
  show (c.cells.currentGuess ++ [x]).length ≤ WORD_LENGTH ∧
    ∀ y ∈ c.cells.currentGuess ++ [x], isAZ y = true
  constructor
  · rw [List.length_append, List.length_singleton]; omega
  · intro y hy
    rcases List.mem_append.1 hy with hy | hy
    · exact h.input.2 y hy
    · rw [List.mem_singleton.1 hy]; exact hx

theorem pre_handleKeyPress (toUpperCase : JSString → JSString) (key : JSString)
    (c : Component) (h : Inv c) : Pre (handleKeyPress toUpperCase key c) := by
  unfold handleKeyPress
  by_cases hp : c.keyHandler.gameStatus = GameStatus.playing
  · rw [if_neg (not_not.2 hp)]
    dsimp only
    split
    · exact pre_submitStart _ c h.pre (by rw [h.guess]; exact h.pre.input.2)
        h.pre.handlerRecorded
    · split
      · exact pre_delete c h.pre
      · split
        · rename_i hk
          exact pre_append c _ h.pre (by rw [← h.status]; exact hp) hk.1
            (by rw [← h.guess]; exact hk.2)
        · exact h.pre
  · rw [if_pos hp]; exact h.pre

theorem pre_keyboardClick (key : JSString) (c : Component) (h : Pre c) :
    Pre (keyboardClick key c) := by
  unfold keyboardClick
  split
  · exact h
  · by_cases hp : c.cells.gameStatus = GameStatus.playing
    · rw [if_neg (not_not.2 hp)]
      split
      · exact pre_submitStart _ c h h.input.2 h.recorded
      · split
        · exact pre_delete c h
        · split
          · rename_i hk
            exact pre_append c _ h hp hk.2 hk.1
          · exact h
    · rw [if_pos hp]; exact h

theorem pre_newGameClick (c : Component) (h : Pre c) : Pre (newGameClick c) := by
  unfold newGameClick
  split
  · exact h
  · refine ⟨?_, ?_, ?_, h.handlerRecorded, h.pending⟩
    · intro hn; exact absurd rfl hn
    · exact ⟨Nat.zero_le _, fun x hx => by cases hx⟩
    · intro g hg; cases hg

theorem pre_handle (toUpperCase : JSString → JSString) (c : Component) (e : Event)
    (h : Inv c) : Pre (handle toUpperCase c e) := by
  cases e with
  | keyDown key => exact pre_handleKeyPress toUpperCase key c h
  | click key => exact pre_keyboardClick key c h.pre
  | newGame => exact pre_newGameClick c h.pre
  | wordFetched fetched r =>
    show Pre (if c.cells.loading = true then
      { c with cells := getRandomWordSettle fetched r c.cells } else c)
    split
    · obtain ⟨h1, h2, h3⟩ := getRandomWordSettle_frame fetched r c.cells
      exact pre_of_fields c _ h.pre h1 h3 h2 rfl rfl
    · exact h.pre
  | validated i remote =>
    cases hi : c.validating[i]? with
    | none =>
      have : handle toUpperCase c (Event.validated i remote) = c := by
        simp [handle, hi]
      rw [this]; exact h.pre
    | some render =>
      have hmem : render ∈ c.validating := List.getElem?_mem hi
      have hsub : ∀ r ∈ c.validating.eraseIdx i, r ∈ c.validating :=
        fun r hr => List.mem_of_mem_eraseIdx hr
      have hpend : ∀ r ∈ c.validating.eraseIdx i,
          WellFormed r.currentGuess ∧ ∀ g ∈ r.guesses, WellFormed g :=
        fun r hr => h.pre.pending r (hsub r hr)
      have hcells : (handle toUpperCase c (Event.validated i remote)).cells =
          submitSettle remote render c.cells := by simp [handle, hi]
      have hval : (handle toUpperCase c (Event.validated i remote)).validating =
          c.validating.eraseIdx i := by simp [handle, hi]
      have hkey : (handle toUpperCase c (Event.validated i remote)).keyHandler =
          c.keyHandler := by simp [handle, hi]
      cases hv : validateWord remote render.currentGuess with
      | false =>
        rw [submitSettle_rejected remote render _ hv] at hcells
        refine ⟨?_, ?_, ?_, ?_, ?_⟩
        · rw [hcells]; exact h.pre.frozen
        · rw [hcells]; exact h.pre.input
        · rw [hcells]; exact h.pre.recorded
        · rw [hkey]; exact h.pre.handlerRecorded
        · rw [hval]; exact hpend
      | true =>
        rw [submitSettle_accepted remote render _ hv] at hcells
        refine ⟨?_, ?_, ?_, ?_, ?_⟩
        · rw [hcells]; intro _; rfl
        · rw [hcells]; exact ⟨Nat.zero_le _, fun x hx => by cases hx⟩
        · rw [hcells]
          intro g hg
          have hg2 : g ∈ render.guesses ++ [render.currentGuess] := hg
          rcases List.mem_append.1 hg2 with hg3 | hg3
          · exact (h.pre.pending render hmem).2 g hg3
          · rw [List.mem_singleton.1 hg3]
            exact (h.pre.pending render hmem).1
        · rw [hkey]; exact h.pre.handlerRecorded
        · rw [hval]; exact hpend
  | invalidWordTimeout =>
    show Pre (if c.timers = 0 then c
      else { c with cells := { c.cells with invalidWord := false }, timers := c.timers - 1 })
    split
    · exact h.pre
    · exact ⟨h.pre.frozen, h.pre.input, h.pre.recorded, h.pre.handlerRecorded, h.pre.pending⟩

theorem inv_render (d : Component) (h : Pre d) :
    Inv { d with keyHandler := useCallback d.keyHandler d.cells } := by
  by_cases hd : d.cells.currentGuess = d.keyHandler.currentGuess ∧
      d.cells.gameStatus = d.keyHandler.gameStatus
  · have hu : useCallback d.keyHandler d.cells = d.keyHandler := by
      unfold useCallback; rw [if_pos hd]
    rw [hu]
    exact ⟨⟨h.frozen, h.input, h.recorded, h.handlerRecorded, h.pending⟩,
      hd.1.symm, hd.2.symm⟩
  · have hu : useCallback d.keyHandler d.cells = d.cells := by
      unfold useCallback; rw [if_neg hd]
    rw [hu]
    exact ⟨⟨h.frozen, h.input, h.recorded, h.recorded, h.pending⟩, rfl, rfl⟩

theorem inv_mounted : Inv mounted := by
  refine ⟨⟨?_, ?_, ?_, ?_, ?_⟩, rfl, rfl⟩
  · intro hn; exact absurd rfl hn
  · exact ⟨Nat.zero_le _, fun x hx => by cases hx⟩
  · intro g hg; cases hg
  · intro g hg; cases hg
  · intro r hr; cases hr

theorem inv_step (toUpperCase : JSString → JSString) (c : Component) (e : Event)
    (h : Inv c) : Inv (step toUpperCase c e) :=
  inv_render _ (pre_handle toUpperCase c e h)

theorem inv_of_reachable (toUpperCase : JSString → JSString) (c : Component)
    (h : Reachable toUpperCase c) : Inv c := by
  induction h with
  | mount => exact inv_mounted
  | step c e _ ih => exact inv_step toUpperCase c e ih

theorem reachable_run (toUpperCase : JSString → JSString) (events : List Event) :
    ∀ c : Component, Reachable toUpperCase c →
      Reachable toUpperCase (run toUpperCase c events) := by
  induction events with
  | nil => intro c h; exact h
  | cons e es ih =>
    intro c h
    exact ih (step toUpperCase c e) (Reachable.step c e h)

theorem step_of_handle_eq (toUpperCase : JSString → JSString) (c : Component) (e : Event)
    (hg : c.keyHandler.currentGuess = c.cells.currentGuess)
    (hs : c.keyHandler.gameStatus = c.cells.gameStatus)
    (h : handle toUpperCase c e = c) : step toUpperCase c e = c := by
  unfold step
  rw [h]
  have hu : useCallback c.keyHandler c.cells = c.keyHandler := by
    unfold useCallback; rw [if_pos ⟨hg.symm, hs.symm⟩]
  rw [hu]

/-! ## The finished game -/

/-- C5: when the status is `'won'` or `'lost'`, every key press (a letter, Backspace,
Enter or anything else) and every click on an on-screen key leaves the whole component
as it is: cells, registered handler, pending validations and timers; no submission is
started, and `handleSubmitGuess` run on the current render changes nothing, so a second
submission records nothing.  The guard of `handleKeyPress` and the `disabled` buttons
do this in any state of the component, reachable or not. -/
theorem finished_game_frozen (toUpperCase : JSString → JSString) (c : Component)
    (hr : Reachable toUpperCase c)
    (h : c.cells.gameStatus = GameStatus.won ∨ c.cells.gameStatus = GameStatus.lost) :
    (∀ key, step toUpperCase c (Event.keyDown key) = c) ∧
    (∀ key, step toUpperCase c (Event.click key) = c) ∧
    (∀ remote, handleSubmitGuess remote c.cells = c.cells) ∧
    submitStart c.cells c = c ∧
    submitStart c.keyHandler c = c ∧
    (∀ (d : Component) (key : JSString),
      (d.keyHandler.gameStatus = GameStatus.won ∨ d.keyHandler.gameStatus = GameStatus.lost) →
      handleKeyPress toUpperCase key d = d) ∧
    (∀ (d : Component) (key : JSString),
      (d.cells.gameStatus = GameStatus.won ∨ d.cells.gameStatus = GameStatus.lost) →
      keyboardClick key d = d) := by
  have hi := inv_of_reachable toUpperCase c hr
  have hn : c.cells.gameStatus ≠ GameStatus.playing := by
    rcases h with h | h <;> rw [h] <;> decide
  have hkey : ∀ (d : Component) (key : JSString),
      (d.keyHandler.gameStatus = GameStatus.won ∨ d.keyHandler.gameStatus = GameStatus.lost) →
      handleKeyPress toUpperCase key d = d := by
    intro d key hd
    have hdn : d.keyHandler.gameStatus ≠ GameStatus.playing := by
      rcases hd with hd | hd <;> rw [hd] <;> decide
    unfold handleKeyPress
    rw [if_pos hdn]
  have hclick : ∀ (d : Component) (key : JSString),
      (d.cells.gameStatus = GameStatus.won ∨ d.cells.gameStatus = GameStatus.lost) →
      keyboardClick key d = d := by
    intro d key hd
    have hdn : d.cells.gameStatus ≠ GameStatus.playing := by
      rcases hd with hd | hd <;> rw [hd] <;> decide
    unfold keyboardClick
    rw [if_pos hdn]
    split <;> rfl
  have hempty : c.cells.currentGuess.length ≠ WORD_LENGTH := by
    rw [hi.pre.frozen hn]; decide
  refine ⟨?_, ?_, ?_, ?_, ?_, hkey, hclick⟩
  · intro key
    exact step_of_handle_eq toUpperCase c _ hi.guess hi.status
      (hkey c key (by rw [hi.status]; exact h))
  · intro key
    exact step_of_handle_eq toUpperCase c _ hi.guess hi.status (hclick c key h)
  · intro remote
    exact handleSubmitGuess_short remote c.cells hempty
  · exact submitStart_short c.cells c hempty
  · exact submitStart_short c.keyHandler c (by rw [hi.guess]; exact hempty)

/-- C5 at the game won with `"PYTHON"`: the keys `x`, Backspace and Enter and the ENTER
button change nothing. -/
theorem finished_game_frozen_witness :
    Reachable asciiUpper pythonWon ∧
    pythonWon.cells.gameStatus = GameStatus.won ∧
    pythonWon.cells.guesses = [js "PYTHON"] ∧
    step asciiUpper pythonWon (Event.keyDown (js "x")) = pythonWon ∧
    step asciiUpper pythonWon (Event.keyDown (js "Backspace")) = pythonWon ∧
    step asciiUpper pythonWon (Event.keyDown (js "Enter")) = pythonWon ∧
    step asciiUpper pythonWon (Event.click (js "ENTER")) = pythonWon ∧
    handleSubmitGuess (some true) pythonWon.cells = pythonWon.cells :=
  have hr : Reachable asciiUpper pythonWon :=
    reachable_run asciiUpper _ _ (reachable_run asciiUpper _ _ Reachable.mount)
  have h := finished_game_frozen asciiUpper pythonWon hr (Or.inl (by decide))
  ⟨hr, by decide, by decide, h.1 _, h.1 _, h.1 _, h.2.1 _, h.2.2.1 _⟩

/-! ## Well-formed input and guesses -/

theorem submitStart_cells (render : GameState) (c : Component) :
    (submitStart render c).cells.currentGuess = c.cells.currentGuess ∧
    (submitStart render c).cells.guesses = c.cells.guesses := by
  unfold submitStart
  split <;> exact ⟨rfl, rfl⟩

theorem append_change (c : Component) (key : JSString)
    (hk : testSingleAZ key = true) (hl : c.cells.currentGuess.length < WORD_LENGTH) :
    InputChange c.cells { c.cells with currentGuess := c.cells.currentGuess ++ key,
                                       invalidWord := false } := by
  obtain ⟨x, rfl, hx⟩ := (testSingleAZ_iff key).1 hk
  exact Or.inr (Or.inr (Or.inr ⟨hl, x, ((isAZ_iff x).1 hx).1, ((isAZ_iff x).1 hx).2, rfl⟩))

theorem handle_change (toUpperCase : JSString → JSString) (c : Component) (e : Event)
    (h : Inv c) :
    InputChange c.cells (handle toUpperCase c e).cells ∧
    GuessesChange c (handle toUpperCase c e).cells := by
  cases e with
  | keyDown key =>
    show InputChange c.cells (handleKeyPress toUpperCase key c).cells ∧
      GuessesChange c (handleKeyPress toUpperCase key c).cells
    unfold handleKeyPress
    split
    · exact ⟨Or.inl rfl, Or.inl rfl⟩
    · dsimp only
      split
      · obtain ⟨h1, h2⟩ := submitStart_cells c.keyHandler c
        exact ⟨Or.inl h1, Or.inl h2⟩
      · split
        · exact ⟨Or.inr (Or.inr (Or.inl rfl)), Or.inl rfl⟩
        · split
          · rename_i hk
            exact ⟨append_change c _ hk.1 (by rw [← h.guess]; exact hk.2), Or.inl rfl⟩
          · exact ⟨Or.inl rfl, Or.inl rfl⟩
  | click key =>
    show InputChange c.cells (keyboardClick key c).cells ∧
      GuessesChange c (keyboardClick key c).cells
    unfold keyboardClick
    split
    · exact ⟨Or.inl rfl, Or.inl rfl⟩
    · split
      · exact ⟨Or.inl rfl, Or.inl rfl⟩
      · split
        · obtain ⟨h1, h2⟩ := submitStart_cells c.cells c
          exact ⟨Or.inl h1, Or.inl h2⟩
        · split
          · exact ⟨Or.inr (Or.inr (Or.inl rfl)), Or.inl rfl⟩
          · split
            · rename_i hk
              exact ⟨append_change c _ hk.2 hk.1, Or.inl rfl⟩
            · exact ⟨Or.inl rfl, Or.inl rfl⟩
  | newGame =>
    show InputChange c.cells (newGameClick c).cells ∧ GuessesChange c (newGameClick c).cells
    unfold newGameClick
    split
    · exact ⟨Or.inl rfl, Or.inl rfl⟩
    · exact ⟨Or.inr (Or.inl rfl), Or.inr (Or.inl rfl)⟩
  | wordFetched fetched r =>
    show InputChange c.cells (if c.cells.loading = true then
        { c with cells := getRandomWordSettle fetched r c.cells } else c).cells ∧
      GuessesChange c (if c.cells.loading = true then
        { c with cells := getRandomWordSettle fetched r c.cells } else c).cells
    split
    · obtain ⟨-, h2, h3⟩ := getRandomWordSettle_frame fetched r c.cells
      exact ⟨Or.inl h3, Or.inl h2⟩
    · exact ⟨Or.inl rfl, Or.inl rfl⟩
  | validated i remote =>
    cases hi : c.validating[i]? with
    | none =>
      have : handle toUpperCase c (Event.validated i remote) = c := by
        simp [handle, hi]
      rw [this]; exact ⟨Or.inl rfl, Or.inl rfl⟩
    | some render =>
      have hmem : render ∈ c.validating := List.getElem?_mem hi
      have hcells : (handle toUpperCase c (Event.validated i remote)).cells =
          submitSettle remote render c.cells := by simp [handle, hi]
      rw [hcells]
      cases hv : validateWord remote render.currentGuess with
      | false =>
        rw [submitSettle_rejected remote render _ hv]
        exact ⟨Or.inl rfl, Or.inl rfl⟩
      | true =>
        rw [submitSettle_accepted remote render _ hv]
        exact ⟨Or.inr (Or.inl rfl),
          Or.inr (Or.inr ⟨render, hmem, (h.pre.pending render hmem).1.1, rfl⟩)⟩
  | invalidWordTimeout =>
    show InputChange c.cells (if c.timers = 0 then c
        else { c with cells := { c.cells with invalidWord := false },
                      timers := c.timers - 1 }).cells ∧
      GuessesChange c (if c.timers = 0 then c
        else { c with cells := { c.cells with invalidWord := false },
                      timers := c.timers - 1 }).cells
    split <;> exact ⟨Or.inl rfl, Or.inl rfl⟩

/-- C8: in every reachable state of the component, whatever keys were pressed and
whenever the remote requests answered, the current input has at most `WORD_LENGTH`
code units, all of them letters `A`..`Z`, and every recorded guess has exactly
`WORD_LENGTH` code units, all of them letters `A`..`Z`; one event lengthens the current
input only by one letter `A`..`Z` and only while it is shorter than `WORD_LENGTH`, and
a guess is recorded only from a submitted input of length `WORD_LENGTH`. -/
theorem reachable_words_wellformed (toUpperCase : JSString → JSString) (c : Component)
    (h : Reachable toUpperCase c) :
    c.cells.currentGuess.length ≤ WORD_LENGTH ∧
    (∀ x ∈ c.cells.currentGuess, 65 ≤ x ∧ x ≤ 90) ∧
    (∀ g ∈ c.cells.guesses, g.length = WORD_LENGTH ∧ ∀ x ∈ g, 65 ≤ x ∧ x ≤ 90) ∧
    (∀ e, InputChange c.cells (step toUpperCase c e).cells) ∧
    (∀ e, GuessesChange c (step toUpperCase c e).cells) := by
  have hi := inv_of_reachable toUpperCase c h
  refine ⟨hi.pre.input.1, fun x hx => (isAZ_iff x).1 (hi.pre.input.2 x hx), ?_,
    fun e => (handle_change toUpperCase c e hi).1,
    fun e => (handle_change toUpperCase c e hi).2⟩
  intro g hg
  exact ⟨(hi.pre.recorded g hg).1, fun x hx => (isAZ_iff x).1 ((hi.pre.recorded g hg).2 x hx)⟩

set_option maxRecDepth 8000 in
/-- C8 at the game with the guess `"PYTHOM"` recorded and then the keys `a`, `1`,
`Shift`, `B`, the button `C` and Backspace: the current input is `"AB"`. -/
theorem reachable_words_wellformed_witness :
    Reachable asciiUpper mixedKeys ∧
    mixedKeys.cells.currentGuess = js "AB" ∧ mixedKeys.cells.guesses = [js "PYTHOM"] ∧
    (mixedKeys.cells.currentGuess.length ≤ WORD_LENGTH ∧
     (∀ x ∈ mixedKeys.cells.currentGuess, 65 ≤ x ∧ x ≤ 90) ∧
     (∀ g ∈ mixedKeys.cells.guesses, g.length = WORD_LENGTH ∧ ∀ x ∈ g, 65 ≤ x ∧ x ≤ 90) ∧
     (∀ e, InputChange mixedKeys.cells (step asciiUpper mixedKeys e).cells) ∧
     (∀ e, GuessesChange mixedKeys (step asciiUpper mixedKeys e).cells)) :=
  have hr : Reachable asciiUpper mixedKeys :=
    reachable_run asciiUpper _ _ (reachable_run asciiUpper _ _ Reachable.mount)
  ⟨hr, by decide, by decide, reachable_words_wellformed asciiUpper mixedKeys hr⟩

/-! ## Submissions and pending requests -/

/-- C2 fails on the component.  `"PYTHON"` is typed while the first word request is
pending and the request then answers `"PYTHON"`: the status is `'playing'`, the current
input has length `WORD_LENGTH` and equals the target word, and the registered
`handleKeyPress` still closes over the render with the empty target word.  The Enter
key with an accepting validator records `"PYTHON"` and leaves the status `'playing'`;
the ENTER button in the same state gives `'won'`.  And with `"PYTHOM"` typed and Enter
pressed twice before the validator answers, both submissions are accepted and one
guess is recorded, the row counter being 2. -/
theorem enter_key_reads_stale_render :
    Reachable asciiUpper typedBeforeWord ∧
    typedBeforeWord.cells.gameStatus = GameStatus.playing ∧
    typedBeforeWord.cells.loading = false ∧
    typedBeforeWord.cells.currentGuess = js "PYTHON" ∧
    typedBeforeWord.cells.targetWord = js "PYTHON" ∧
    typedBeforeWord.keyHandler.targetWord = [] ∧
    enterAfterWord.cells.guesses = [js "PYTHON"] ∧
    enterAfterWord.cells.currentGuess = [] ∧
    enterAfterWord.cells.gameStatus = GameStatus.playing ∧
    clickAfterWord.cells.guesses = [js "PYTHON"] ∧
    clickAfterWord.cells.gameStatus = GameStatus.won ∧
    doubleEnter.cells.guesses = [js "PYTHOM"] ∧
    doubleEnter.cells.gameStatus = GameStatus.playing ∧
    doubleEnter.cells.currentRow = 2 :=
  ⟨reachable_run asciiUpper _ _ Reachable.mount, by decide, by decide, by decide,
    by decide, by decide, by decide, by decide, by decide, by decide, by decide,
    by decide, by decide, by decide⟩

/-- C3 fails on the component.  After `"PYTHON"` is typed while the first word request
is pending, the request answers `"PYTHON"` and the guess is submitted with Enter and
accepted, the status is `'playing'` although a recorded guess equals the target word.
After New Game, `"PYTHON"` typed and submitted while the new word request is pending,
and the request answering `"GARDEN"`, the status is `'won'` although no recorded guess
equals the target word. -/
theorem status_invariant_broken :
    Reachable asciiUpper enterAfterWord ∧
    enterAfterWord.cells.gameStatus = GameStatus.playing ∧
    (∃ g ∈ enterAfterWord.cells.guesses, g = enterAfterWord.cells.targetWord) ∧
    Reachable asciiUpper guessDuringReset ∧
    guessDuringReset.cells.gameStatus = GameStatus.won ∧
    guessDuringReset.cells.targetWord = js "GARDEN" ∧
    guessDuringReset.cells.guesses = [js "PYTHON"] ∧
    ¬ (∃ g ∈ guessDuringReset.cells.guesses, g = guessDuringReset.cells.targetWord) :=
  ⟨reachable_run asciiUpper _ _ (reachable_run asciiUpper _ _ Reachable.mount),
    by decide, by decide,
    reachable_run asciiUpper _ _ (reachable_run asciiUpper _ _ Reachable.mount),
    by decide, by decide, by decide, by decide⟩

/-! ## Keyboard status -/

theorem best_correct (x : LetterStatus) :
    best (some LetterStatus.correct) x = some LetterStatus.correct := by
  cases x <;> simp [best]

theorem foldl_best_correct (l : List LetterStatus) :
    l.foldl best (some LetterStatus.correct) = some LetterStatus.correct := by
  induction l with
  | nil => rfl
  | cons x l ih => rw [List.foldl_cons, best_correct, ih]

theorem scanPositions_eq_foldl (T key g : JSString) (ps : List Int) :
    ∀ st, scanPositions T key g ps st =
      (ps.map (fun p => getLetterStatus T key p.toNat g)).foldl best st := by
  induction ps with
  | nil => intro st; rfl
  | cons p ps ih =>
    intro st
    rw [List.map_cons, List.foldl_cons]
    unfold scanPositions
    cases hls : getLetterStatus T key p.toNat g with
    | correct =>
      simp only [if_true]
      rw [show best st LetterStatus.correct = some LetterStatus.correct from rfl,
        foldl_best_correct]
    | present =>
      by_cases hst : st = some LetterStatus.correct
      · simp [hst, best, ih]
      · simp [hst, best, ih]
    | absent =>
      by_cases hst : st = none
      · simp [hst, best, ih]
      · simp [hst, best, ih]

theorem getKeyStatus_foldl (T : JSString) (key : JSString) (gs : List JSString) :
    ∀ st,
      gs.foldl
        (fun status guess =>
          if includes guess key then
            scanPositions T key guess (positions key guess) status
          else status) st =
      (scores T gs key).foldl best st := by
  induction gs with
  | nil => intro st; rfl
  | cons g gs ih =>
    intro st
    rw [List.foldl_cons, ih]
    unfold scores
    rw [List.flatMap_cons, List.foldl_append]
    by_cases hinc : includes g key = true
    · simp only [hinc, if_true]
      rw [scanPositions_eq_foldl]
    · simp only [hinc, if_false]
      rfl

theorem foldl_best_summary (l : List LetterStatus) :
    ∀ st, l.foldl best st = summary (st.toList ++ l) := by
  induction l with
  | nil =>
    intro st
    cases st with
    | none => rfl
    | some x => cases x <;> rfl
  | cons x l ih =>
    intro st
    rw [List.foldl_cons, ih]
    cases st with
    | none => cases x <;> simp [best, summary]
    | some y =>
      cases y <;> cases x <;> simp [best, summary]

theorem getKeyStatus_eq_summary (T : JSString) (gs : List JSString) (key : JSString) :
    getKeyStatus T gs key = summary (scores T gs key) := by
  unfold getKeyStatus
  rw [getKeyStatus_foldl, foldl_best_summary]
  rfl

theorem mem_positions (c : Nat) (g : JSString) (p : Int) :
    p ∈ positions [c] g ↔ ∃ i : Nat, p = (i : Int) ∧ g[i]? = some c := by
  unfold positions
  rw [List.mem_filter, List.mem_map]
  constructor
  · rintro ⟨⟨x, hx, hp⟩, hne⟩
    have hne2 : p ≠ -1 := by simpa using hne
    by_cases hc : [x.2] = [c]
    · rw [if_pos hc] at hp
      have hx2 := List.mem_enum_iff_getElem?.1 hx
      have hxc : x.2 = c := by simpa using hc
      exact ⟨x.1, hp.symm, by rw [hx2, hxc]⟩
    · rw [if_neg hc] at hp
      exact absurd hp.symm hne2
  · rintro ⟨i, rfl, hi⟩
    refine ⟨⟨(i, c), List.mem_enum_iff_getElem?.2 hi, by simp⟩, ?_⟩
    simp only [ne_eq, decide_eq_true_eq]
    omega

theorem mem_scores (T : JSString) (gs : List JSString) (c : Nat) (st : LetterStatus) :
    st ∈ scores T gs [c] ↔ Scored T gs c st := by
  unfold scores Scored
  rw [List.mem_flatMap]
  constructor
  · rintro ⟨g, hg, hst⟩
    by_cases hinc : includes g [c] = true
    · rw [if_pos hinc, List.mem_map] at hst
      obtain ⟨p, hp, hpst⟩ := hst
      obtain ⟨i, rfl, hi⟩ := (mem_positions c g p).1 hp
      exact ⟨g, hg, i, hi, by simpa using hpst⟩
    · rw [if_neg hinc] at hst
      cases hst
  · rintro ⟨g, hg, i, hi, hst⟩
    refine ⟨g, hg, ?_⟩
    have hmem : c ∈ g := List.getElem?_mem hi
    rw [if_pos ((includes_singleton c g).2 hmem), List.mem_map]
    exact ⟨(i : Int), (mem_positions c g i).2 ⟨i, rfl, hi⟩, by simpa using hst⟩

theorem scored_of_mem (T : JSString) (gs : List JSString) (c : Nat) (g : JSString)
    (hg : g ∈ gs) (hc : c ∈ g) : ∃ st, Scored T gs c st := by
  obtain ⟨i, hi⟩ := List.getElem?_of_mem hc
  exact ⟨getLetterStatus T [c] i g, g, hg, i, hi, rfl⟩

theorem summary_correct_iff (l : List LetterStatus) :
    summary l = some LetterStatus.correct ↔ LetterStatus.correct ∈ l := by
  unfold summary
  by_cases h1 : LetterStatus.correct ∈ l
  · simp [h1]
  · by_cases h2 : LetterStatus.present ∈ l
    · simp [h1, h2]
    · by_cases h3 : LetterStatus.absent ∈ l <;> simp [h1, h2, h3]

theorem summary_present (l : List LetterStatus) (h1 : LetterStatus.correct ∉ l)
    (h2 : LetterStatus.present ∈ l) : summary l = some LetterStatus.present := by
  simp [summary, h1, h2]

theorem summary_absent (l : List LetterStatus) (h1 : LetterStatus.correct ∉ l)
    (h2 : LetterStatus.present ∉ l) (h3 : LetterStatus.absent ∈ l) :
    summary l = some LetterStatus.absent := by
  simp [summary, h1, h2, h3]

theorem summary_none_iff (l : List LetterStatus) :
    summary l = none ↔ ∀ st, st ∉ l := by
  unfold summary
  constructor
  · intro h st hst
    by_cases h1 : LetterStatus.correct ∈ l
    · simp [h1] at h
    · by_cases h2 : LetterStatus.present ∈ l
      · simp [h1, h2] at h
      · by_cases h3 : LetterStatus.absent ∈ l
        · simp [h1, h2, h3] at h
        · cases st
          · exact h1 hst
          · exact h2 hst
          · exact h3 hst
  · intro h
    simp [h]

theorem summary_congr (l1 l2 : List LetterStatus) (h : ∀ st, st ∈ l1 ↔ st ∈ l2) :
    summary l1 = summary l2 := by
  unfold summary
  simp only [h]

/-- C4: for a letter `c`, a target `T` and recorded guesses `gs`, `getKeyStatus(c)` is
`'correct'` if some occurrence of `c` in a guess is scored `'correct'`; otherwise
`'present'` if some occurrence is scored `'present'`; otherwise `'absent'` if some
occurrence is scored `'absent'`; it is empty exactly when `c` occurs in no guess; it
does not depend on the order of the guesses; and a `'correct'` stays `'correct'`
whatever guesses follow. -/
theorem getKeyStatus_spec (T : JSString) (gs : List JSString) (c : Nat) :
    (Scored T gs c LetterStatus.correct →
      getKeyStatus T gs [c] = some LetterStatus.correct) ∧
    (¬ Scored T gs c LetterStatus.correct → Scored T gs c LetterStatus.present →
      getKeyStatus T gs [c] = some LetterStatus.present) ∧
    (¬ Scored T gs c LetterStatus.correct → ¬ Scored T gs c LetterStatus.present →
      Scored T gs c LetterStatus.absent →
      getKeyStatus T gs [c] = some LetterStatus.absent) ∧
    (getKeyStatus T gs [c] = none ↔ ∀ g ∈ gs, c ∉ g) ∧
    (∀ gs2 : List JSString, gs2.Perm gs → getKeyStatus T gs2 [c] = getKeyStatus T gs [c]) ∧
    (∀ later : List JSString, getKeyStatus T gs [c] = some LetterStatus.correct →
      getKeyStatus T (gs ++ later) [c] = some LetterStatus.correct) := by
  refine ⟨?_, ?_, ?_, ?_, ?_, ?_⟩
  · intro h
    rw [getKeyStatus_eq_summary, summary_correct_iff, mem_scores]
    exact h
  · intro h1 h2
    rw [getKeyStatus_eq_summary]
    exact summary_present _ (fun h => h1 ((mem_scores T gs c _).1 h))
      ((mem_scores T gs c _).2 h2)
  · intro h1 h2 h3
    rw [getKeyStatus_eq_summary]
    exact summary_absent _ (fun h => h1 ((mem_scores T gs c _).1 h))
      (fun h => h2 ((mem_scores T gs c _).1 h)) ((mem_scores T gs c _).2 h3)
  · rw [getKeyStatus_eq_summary, summary_none_iff]
    constructor
    · intro h g hg hc
      obtain ⟨st, hst⟩ := scored_of_mem T gs c g hg hc
      exact h st ((mem_scores T gs c st).2 hst)
    · intro h st hst
      obtain ⟨g, hg, i, hi, -⟩ := (mem_scores T gs c st).1 hst
      exact h g hg (List.getElem?_mem hi)
  · intro gs2 hperm
    rw [getKeyStatus_eq_summary, getKeyStatus_eq_summary]
    apply summary_congr
    intro st
    rw [mem_scores, mem_scores]
    constructor
    · rintro ⟨g, hg, rest⟩
      exact ⟨g, hperm.mem_iff.1 hg, rest⟩
    · rintro ⟨g, hg, rest⟩
      exact ⟨g, hperm.mem_iff.2 hg, rest⟩
  · intro later h
    rw [getKeyStatus_eq_summary, summary_correct_iff, mem_scores] at h
    obtain ⟨g, hg, rest⟩ := h
    rw [getKeyStatus_eq_summary, summary_correct_iff, mem_scores]
    exact ⟨g, List.mem_append_left later hg, rest⟩

/-! ## Degraded validation -/

theorem validateWord_none_iff (w : JSString) :
    validateWord none w = true ↔
      hasRepeatedPattern w = false ∧ isAllSameLetter w = false ∧
        w.length = WORD_LENGTH ∧ testAllAZ w = true := by
  unfold validateWord
  cases h1 : hasRepeatedPattern w <;> cases h2 : isAllSameLetter w <;> simp

theorem isLineTerminator_of_isAZ (c : Nat) (h : isAZ c = true) :
    isLineTerminator c = false := by
  have h2 := (isAZ_iff c).1 h
  unfold isLineTerminator
  have e1 : c ≠ 10 := by omega
  have e2 : c ≠ 13 := by omega
  have e3 : c ≠ 8232 := by omega
  have e4 : c ≠ 8233 := by omega
  simp [e1, e2, e3, e4]

theorem hasRepeatedPattern_cons (x : Nat) (w : JSString)
    (h : hasRepeatedPattern w = true) : hasRepeatedPattern (x :: w) = true := by
  match w, h with
  | [], h => simp [hasRepeatedPattern] at h
  | [_], h => simp [hasRepeatedPattern] at h
  | [_, _], h => simp [hasRepeatedPattern] at h
  | b :: c :: d :: rest, h =>
    show ((!isLineTerminator x && decide (x = b) && decide (b = c)) ||
      hasRepeatedPattern (b :: c :: d :: rest)) = true
    rw [h, Bool.or_true]

theorem hasTriple_of_hasRepeatedPattern (w : JSString) :
    hasRepeatedPattern w = true → HasTriple w := by
  induction w with
  | nil => intro h; simp [hasRepeatedPattern] at h
  | cons a w ih =>
    intro h
    match w, ih, h with
    | [], _, h => simp [hasRepeatedPattern] at h
    | [_], _, h => simp [hasRepeatedPattern] at h
    | b :: c :: rest, ih, h =>
      have h2 : ((!isLineTerminator a && decide (a = b) && decide (b = c)) ||
          hasRepeatedPattern (b :: c :: rest)) = true := h
      rw [Bool.or_eq_true] at h2
      rcases h2 with h2 | h2
      · simp only [Bool.and_eq_true, decide_eq_true_eq] at h2
        obtain ⟨⟨-, hab⟩, hbc⟩ := h2
        exact ⟨0, a, by simp, by simp [hab], by simp [hab, hbc]⟩
      · obtain ⟨i, x, h0, h1, h2⟩ := ih h2
        exact ⟨i + 1, x, by simpa using h0, by simpa using h1, by simpa using h2⟩

theorem hasRepeatedPattern_of_hasTriple (w : JSString) (haz : ∀ c ∈ w, isAZ c = true) :
    HasTriple w → hasRepeatedPattern w = true := by
  rintro ⟨i, x, h0, h1, h2⟩
  induction i generalizing w with
  | zero =>
    match w, haz, h0, h1, h2 with
    | a :: b :: c :: rest, haz, h0, h1, h2 =>
      have ea : a = x := by simpa using h0
      have eb : b = x := by simpa using h1
      have ec : c = x := by simpa using h2
      have hlt := isLineTerminator_of_isAZ a (haz a (List.mem_cons_self _ _))
      rw [ea] at hlt
      simp [hasRepeatedPattern, ea, eb, ec, hlt]
    | [], _, h0, _, _ => simp at h0
    | [_], _, _, h1, _ => simp at h1
    | [_, _], _, _, _, h2 => simp at h2
  | succ i ih =>
    match w, haz, h0, h1, h2 with
    | [], _, h0, _, _ => simp at h0
    | a :: w, haz, h0, h1, h2 =>
      apply hasRepeatedPattern_cons
      apply ih w (fun c hc => haz c (List.mem_cons_of_mem _ hc))
      · simpa using h0
      · simpa using h1
      · simpa using h2

theorem codePoints_of_isAZ (w : JSString) (haz : ∀ c ∈ w, isAZ c = true) :
    codePoints w = w.map (fun c => [c]) := by
  induction w with
  | nil => rfl
  | cons a w ih =>
    match w, ih, haz with
    | [], _, _ => rfl
    | b :: rest, ih, haz =>
      have ha := (isAZ_iff a).1 (haz a (List.mem_cons_self _ _))
      have hcond : ¬ (55296 ≤ a ∧ a ≤ 56319 ∧ 56320 ≤ b ∧ b ≤ 57343) := by omega
      show (if 55296 ≤ a ∧ a ≤ 56319 ∧ 56320 ≤ b ∧ b ≤ 57343 then [a, b] :: codePoints rest
        else [a] :: codePoints (b :: rest)) = _
      rw [if_neg hcond, ih (fun c hc => haz c (List.mem_cons_of_mem _ hc))]
      rfl

theorem dedup_length_one_iff {α : Type} [DecidableEq α] (l : List α) :
    l.dedup.length = 1 ↔ l ≠ [] ∧ ∀ a ∈ l, ∀ b ∈ l, a = b := by
  constructor
  · intro h
    obtain ⟨x, hx⟩ := List.length_eq_one.1 h
    have hmem : ∀ a, a ∈ l → a = x := by
      intro a ha
      have : a ∈ l.dedup := List.mem_dedup.2 ha
      rw [hx] at this
      exact List.mem_singleton.1 this
    refine ⟨?_, fun a ha b hb => (hmem a ha).trans (hmem b hb).symm⟩
    intro hnil
    rw [hnil] at hx
    cases hx
  · rintro ⟨hne, hall⟩
    induction l with
    | nil => exact absurd rfl hne
    | cons a l ih =>
      cases l with
      | nil => rfl
      | cons b l =>
        have hab : a = b :=
          hall a (List.mem_cons_self _ _) b (List.mem_cons_of_mem _ (List.mem_cons_self _ _))
        have hmem : a ∈ b :: l := by rw [hab]; exact List.mem_cons_self _ _
        rw [List.dedup_cons_of_mem hmem]
        exact ih (List.cons_ne_nil _ _)
          (fun x hx y hy => hall x (List.mem_cons_of_mem _ hx) y (List.mem_cons_of_mem _ hy))

theorem isAllSameLetter_of_isAZ (w : JSString) (haz : ∀ c ∈ w, isAZ c = true) :
    isAllSameLetter w = true ↔ w ≠ [] ∧ AllIdentical w := by
  unfold isAllSameLetter AllIdentical
  rw [decide_eq_true_eq, codePoints_of_isAZ w haz, dedup_length_one_iff]
  constructor
  · rintro ⟨hne, hall⟩
    refine ⟨fun h => hne (by rw [h]; rfl), fun a ha b hb => ?_⟩
    have := hall [a] (List.mem_map.2 ⟨a, ha, rfl⟩) [b] (List.mem_map.2 ⟨b, hb, rfl⟩)
    simpa using this
  · rintro ⟨hne, hall⟩
    refine ⟨fun h => hne (List.map_eq_nil_iff.1 h), ?_⟩
    intro x hx y hy
    obtain ⟨a, ha, rfl⟩ := List.mem_map.1 hx
    obtain ⟨b, hb, rfl⟩ := List.mem_map.1 hy
    rw [hall a ha b hb]

/-- C10: on the degraded path of `validateWord` (the remote requests threw), a
candidate `w` is rejected if it has three identical consecutive code units or all its
code units are identical; otherwise it is accepted exactly when it has length
`WORD_LENGTH` (6) and consists only of the letters `A`..`Z`. -/
theorem validateWord_degraded_spec (w : JSString) :
    (HasTriple w ∨ AllIdentical w → validateWord none w = false) ∧
    (¬ (HasTriple w ∨ AllIdentical w) →
      (validateWord none w = true ↔
        w.length = WORD_LENGTH ∧ ∀ c ∈ w, 65 ≤ c ∧ c ≤ 90)) ∧
    WORD_LENGTH = 6 ∧ validateWord none (js "ZZZZZZ") = false := by
  refine ⟨?_, ?_, rfl, by decide⟩
  · intro h
    rw [← Bool.not_eq_true]
    intro hv
    obtain ⟨h1, h2, -, h4⟩ := (validateWord_none_iff w).1 hv
    obtain ⟨hne, haz⟩ := (testAllAZ_iff w).1 h4
    rcases h with h | h
    · rw [hasRepeatedPattern_of_hasTriple w haz h] at h1
      cases h1
    · rw [(isAllSameLetter_of_isAZ w haz).2 ⟨hne, h⟩] at h2
      cases h2
  · intro hno
    constructor
    · intro hv
      obtain ⟨-, -, h3, h4⟩ := (validateWord_none_iff w).1 hv
      exact ⟨h3, fun c hc => (isAZ_iff c).1 (((testAllAZ_iff w).1 h4).2 c hc)⟩
    · rintro ⟨hlen, haz⟩
      have haz2 : ∀ c ∈ w, isAZ c = true := fun c hc => (isAZ_iff c).2 (haz c hc)
      have hne : w ≠ [] := by
        intro h; rw [h] at hlen; cases hlen
      refine (validateWord_none_iff w).2 ⟨?_, ?_, hlen, (testAllAZ_iff w).2 ⟨hne, haz2⟩⟩
      · rw [← Bool.not_eq_true]
        exact fun h => hno (Or.inl (hasTriple_of_hasRepeatedPattern w h))
      · rw [← Bool.not_eq_true]
        exact fun h => hno (Or.inr ((isAllSameLetter_of_isAZ w haz2).1 h).2)

end Wordle
